import Mathlib

/-
  A shallow embedding of the Intcode virtual machine from `src/intcode.rs`
  (advent-of-code-2019).  Memory cells are `i32` in the source; arithmetic on
  the puzzle fixtures stays far from the 32-bit boundary, so cells are
  modelled as unbounded `Int`, while the Rust truncated `%` and `/` on
  possibly-negative words are modelled with `Int.tmod` / `Int.tdiv`.
  Addresses are `usize`; the cast `value as usize` (i32 → usize, 64-bit
  target) is `emod 2^64`.  Rust's in-place mutation is modelled by explicit
  state passing: a fallible mutating method returns the error (if any)
  together with the state as mutated so far, mirroring what the caller of
  the Rust method observes after an early `?` return.  The interactive
  stdin input source of the `Input` opcode is modelled as a queue
  (`List Int`) of pending values threaded through execution, the shallow
  embedding of a blocking "fetch next integer, or fail" capability.
-/

namespace Intcode

/-- The error enumeration `ComputerError` from `src/intcode.rs`. -/
inductive ComputerError where
  | UnknownOpcode
  | InstructionDecodeFailed
  | MemoryOperationOutOfBounds
  | UnknownParameterMode
  | WriteParameterCannotBeImmediateMode
  | FailedToGetInput
  deriving DecidableEq, Repr

/-- `SimpleMemory::read_slot`: bounds-checked read. -/
def read_slot (m : List Int) (slot : Nat) : Except ComputerError Int :=
  if h : slot < m.length then .ok (m.get ⟨slot, h⟩)
  else .error .MemoryOperationOutOfBounds

/-- `SimpleMemory::write_slot`: bounds-checked overwrite in place
(the new memory contents are returned). -/
def write_slot (m : List Int) (slot : Nat) (value : Int) :
    Except ComputerError (List Int) :=
  if slot < m.length then .ok (m.set slot value)
  else .error .MemoryOperationOutOfBounds

/-- `SimpleMemory::read_stream_from`: bounds-checked stream of the cells
from `slot` to the end.  The Rust iterator is lazy over memory borrowed
immutably for the whole decode, so a snapshot list is equivalent. -/
def read_stream_from (m : List Int) (slot : Nat) :
    Except ComputerError (List Int) :=
  if slot < m.length then .ok (m.drop slot)
  else .error .MemoryOperationOutOfBounds

/-- The addressing-mode enumeration `ParameterMode`. -/
inductive ParameterMode where
  | Position
  | Immediate
  deriving DecidableEq, Repr

/-- `ParameterMode::decode`: the least decimal digit (Rust truncated `%`)
selects the mode; digits other than 0 and 1 fail. -/
def ParameterMode.decode (raw : Int) : Except ComputerError ParameterMode :=
  if raw.tmod 10 = 0 then .ok .Position
  else if raw.tmod 10 = 1 then .ok .Immediate
  else .error .UnknownParameterMode

/-- The loop body of `ParameterMode::decode_all`, with an explicit fuel
argument so that the recursion is structural (kernel-reducible).  The loop
`while raw > 0 { modes.push(decode(raw)?); raw /= 10 }` runs at most
`raw.natAbs` times, so the fuel-exhausted branch is unreachable when the
fuel starts at `raw.natAbs`. -/
def ParameterMode.decodeAllAux : Nat → Int → Except ComputerError (List ParameterMode)
  | 0, _ => .ok []
  | fuel + 1, raw =>
    if raw > 0 then do
      let mode ← ParameterMode.decode raw
      let rest ← ParameterMode.decodeAllAux fuel (raw.tdiv 10)
      pure (mode :: rest)
    else .ok []

/-- `ParameterMode::decode_all`: decode mode digits least-significant first
while the remaining word is positive. -/
def ParameterMode.decode_all (raw : Int) : Except ComputerError (List ParameterMode) :=
  ParameterMode.decodeAllAux raw.natAbs raw

/-- The opcode enumeration `Opcode`. -/
inductive Opcode where
  | Add
  | Multiply
  | Input
  | Output
  | Halt
  deriving DecidableEq, Repr

/-- `Opcode::decode`: the low two decimal digits (Rust truncated `%`)
select the opcode; anything else fails with `UnknownOpcode`. -/
def Opcode.decode (raw : Int) : Except ComputerError Opcode :=
  if raw.tmod 100 = 1 then .ok .Add
  else if raw.tmod 100 = 2 then .ok .Multiply
  else if raw.tmod 100 = 3 then .ok .Input
  else if raw.tmod 100 = 4 then .ok .Output
  else if raw.tmod 100 = 99 then .ok .Halt
  else .error .UnknownOpcode

/-- The decoded parameter `Parameter`: an address to dereference or a
literal value. -/
inductive Parameter where
  | Position (address : Nat)
  | Immediate (value : Int)
  deriving DecidableEq, Repr

/-- The Rust cast `value as usize` (i32 sign-extended to a 64-bit usize). -/
def asAddress (value : Int) : Nat := (value.emod (2 ^ 64)).toNat

/-- The decoded instruction header `InstructionHeader`. -/
structure InstructionHeader where
  opcode : Opcode
  parameter_modes : List ParameterMode
  deriving DecidableEq, Repr

/-- `InstructionHeader::decode`: opcode from the word, mode digits from
`word / 100` (Rust truncated division); the opcode is decoded first, so
its error wins when both would fail. -/
def InstructionHeader.decode (raw : Int) : Except ComputerError InstructionHeader := do
  let opcode ← Opcode.decode raw
  let parameter_modes ← ParameterMode.decode_all (raw.tdiv 100)
  pure { opcode := opcode, parameter_modes := parameter_modes }

/-- `InstructionHeader::get_mode_of_parameter`: the n-th decoded mode,
defaulting to Position when absent. -/
def InstructionHeader.get_mode_of_parameter (h : InstructionHeader) (n : Nat) :
    ParameterMode :=
  h.parameter_modes.getD n .Position

/-- `InstructionHeader::wrap_parameter`: wrap a raw operand according to
the mode of parameter `n`. -/
def InstructionHeader.wrap_parameter (h : InstructionHeader) (n : Nat) (value : Int) :
    Parameter :=
  match h.get_mode_of_parameter n with
  | .Position => .Position (asAddress value)
  | .Immediate => .Immediate value

/-- `Instruction::next_n_values`: take `n` cells from the stream, failing
with `InstructionDecodeFailed` when fewer remain. -/
def next_n_values (stream : List Int) (n : Nat) : Except ComputerError (List Int) :=
  let result := stream.take n
  if result.length < n then .error .InstructionDecodeFailed
  else .ok result

/-- `InstructionHeader::wrap_parameters`: pull `n` raw operands and wrap
each by its positional mode. -/
def InstructionHeader.wrap_parameters (h : InstructionHeader) (stream : List Int)
    (n : Nat) : Except ComputerError (List Parameter) := do
  let values ← next_n_values stream n
  pure (values.enum.map fun p => h.wrap_parameter p.1 p.2)

/-- The decoded instruction `Instruction`. -/
inductive Instruction where
  | Add (a b result : Parameter)
  | Multiply (a b result : Parameter)
  | Input (destination : Parameter)
  | Output (source : Parameter)
  | Halt
  deriving DecidableEq, Repr

/-- `Instruction::decode`: pull the header word (failing with
`InstructionDecodeFailed` on an exhausted stream), decode it, then pull and
wrap the opcode's parameter count.  `wrap_parameters` with count `n` always
yields exactly `n` parameters; the Rust code indexes `parameters[0..2]`
directly, which would panic on any other shape, so the fallback branches
are unreachable. -/
def Instruction.decode (stream : List Int) : Except ComputerError Instruction :=
  match stream with
  | [] => .error .InstructionDecodeFailed
  | raw :: rest => do
    let header ← InstructionHeader.decode raw
    match header.opcode with
    | .Add => do
      let parameters ← header.wrap_parameters rest 3
      match parameters with
      | [a, b, c] => pure (.Add a b c)
      | _ => .error .InstructionDecodeFailed
    | .Multiply => do
      let parameters ← header.wrap_parameters rest 3
      match parameters with
      | [a, b, c] => pure (.Multiply a b c)
      | _ => .error .InstructionDecodeFailed
    | .Input => do
      let parameters ← header.wrap_parameters rest 1
      match parameters with
      | [a] => pure (.Input a)
      | _ => .error .InstructionDecodeFailed
    | .Output => do
      let parameters ← header.wrap_parameters rest 1
      match parameters with
      | [a] => pure (.Output a)
      | _ => .error .InstructionDecodeFailed
    | .Halt => pure .Halt

/-- The audit-log entry `RecordedIO` (renamed `RecordedIo` here). -/
inductive RecordedIo where
  | UserInput (value : Int)
  | Output (value : Int)
  deriving DecidableEq, Repr

/-- The machine state of `Computer`: instruction pointer, cycle counter,
halted flag, the owned memory and the IO audit log. -/
structure Computer where
  instruction_pointer : Nat
  cycle_count : Nat
  halted : Bool
  memory : List Int
  io_record : List RecordedIo
  deriving DecidableEq, Repr

/-- `Computer::new`: pointer 0, cycle count 0, not halted, empty IO log. -/
def Computer.new (memory : List Int) : Computer :=
  { instruction_pointer := 0
    cycle_count := 0
    halted := false
    memory := memory
    io_record := [] }

/-- `Computer::perform_read`: dereference a Position parameter, or return
an Immediate literal. -/
def Computer.perform_read (c : Computer) (source : Parameter) :
    Except ComputerError Int :=
  match source with
  | .Position address => read_slot c.memory address
  | .Immediate value => .ok value

/-- `Computer::perform_write`: write through a Position parameter; writing
through an Immediate parameter is an error. -/
def Computer.perform_write (c : Computer) (destination : Parameter) (value : Int) :
    Except ComputerError Computer :=
  match destination with
  | .Position address =>
    match write_slot c.memory address value with
    | .ok m => .ok { c with memory := m }
    | .error e => .error e
  | .Immediate _ => .error .WriteParameterCannotBeImmediateMode

/-- `Computer::execute`: dispatch one decoded instruction.  Returns the
advance amount on success, and in every case the machine state as mutated
so far together with the remaining input queue.  For Add/Multiply the Rust
argument order evaluates both operand reads before the single write; for
Input the IO log entry is pushed before the destination write. -/
def Computer.execute (c : Computer) (inputs : List Int) (instruction : Instruction) :
    Except ComputerError Nat × Computer × List Int :=
  match instruction with
  | .Add a b result =>
    match c.perform_read a with
    | .error e => (.error e, c, inputs)
    | .ok va =>
      match c.perform_read b with
      | .error e => (.error e, c, inputs)
      | .ok vb =>
        match c.perform_write result (va + vb) with
        | .error e => (.error e, c, inputs)
        | .ok c2 => (.ok 4, c2, inputs)
  | .Multiply a b result =>
    match c.perform_read a with
    | .error e => (.error e, c, inputs)
    | .ok va =>
      match c.perform_read b with
      | .error e => (.error e, c, inputs)
      | .ok vb =>
        match c.perform_write result (va * vb) with
        | .error e => (.error e, c, inputs)
        | .ok c2 => (.ok 4, c2, inputs)
  | .Input destination =>
    match inputs with
    | [] => (.error .FailedToGetInput, c, inputs)
    | value :: rest =>
      let c1 := { c with io_record := c.io_record ++ [RecordedIo.UserInput value] }
      match c1.perform_write destination value with
      | .error e => (.error e, c1, rest)
      | .ok c2 => (.ok 2, c2, rest)
  | .Output source =>
    match c.perform_read source with
    | .error e => (.error e, c, inputs)
    | .ok value =>
      (.ok 2, { c with io_record := c.io_record ++ [RecordedIo.Output value] }, inputs)
  | .Halt => (.ok 0, { c with halted := true }, inputs)

/-- `Computer::step`: stream memory from the instruction pointer, decode
one instruction, execute it, then advance the pointer and bump the cycle
counter.  Any failure before execution leaves the state untouched. -/
def Computer.step (c : Computer) (inputs : List Int) :
    Except ComputerError Unit × Computer × List Int :=
  match read_stream_from c.memory c.instruction_pointer with
  | .error e => (.error e, c, inputs)
  | .ok stream =>
    match Instruction.decode stream with
    | .error e => (.error e, c, inputs)
    | .ok instruction =>
      match c.execute inputs instruction with
      | (.error e, c2, inputs2) => (.error e, c2, inputs2)
      | (.ok advance_by, c2, inputs2) =>
        (.ok (), { c2 with
          instruction_pointer := c2.instruction_pointer + advance_by
          cycle_count := c2.cycle_count + 1 }, inputs2)

/-- The driver loop `while !halted { step()? }` of the tests, with fuel:
`some (.ok _)` means the loop reached a halted state, `some (.error _)`
means a step failed, `none` means the fuel ran out first. -/
def Computer.run (fuel : Nat) (c : Computer) (inputs : List Int) :
    Option (Except ComputerError (Computer × List Int)) :=
  if c.halted then some (.ok (c, inputs))
  else
    match fuel with
    | 0 => none
    | fuel2 + 1 =>
      match c.step inputs with
      | (.error e, _, _) => some (.error e)
      | (.ok _, c2, inputs2) => Computer.run fuel2 c2 inputs2

/-- `n` consecutive invocations of `step`, keeping whatever state each
step returns, regardless of errors. -/
def Computer.stepMany : Nat → Computer → List Int → Computer × List Int
  | 0, c, inputs => (c, inputs)
  | n + 1, c, inputs =>
    let r := c.step inputs
    Computer.stepMany n r.2.1 r.2.2

/-- The mode-digit loop as the spec words it ("repeatedly takes `word mod
10`, divides by 10, stops when the remaining value is 0"), stated for
comparison with the source's `ParameterMode::decode_all`, whose loop guard
is `raw > 0` instead.  Fueled like `decodeAllAux`; repeated truncated
division drives any word to 0 within `raw.natAbs` iterations. -/
def specDecodeAllAux : Nat → Int → Except ComputerError (List ParameterMode)
  | 0, _ => .ok []
  | fuel + 1, raw =>
    if raw = 0 then .ok []
    else do
      let mode ← ParameterMode.decode raw
      let rest ← specDecodeAllAux fuel (raw.tdiv 10)
      pure (mode :: rest)

/-- The spec's description of `decode_all`, packaged with its fuel. -/
def specDecodeAll (raw : Int) : Except ComputerError (List ParameterMode) :=
  specDecodeAllAux raw.natAbs raw

/-- Claim C1: each canonical fixture program, stepped from the initial
state (pointer 0, not halted) until halted, terminates with the stated
final memory: `[1,0,0,0,99]` ends as `[2,0,0,0,99]`, `[2,3,0,3,99]` as
`[2,3,0,6,99]`, `[2,4,4,5,99,0]` as `[2,4,4,5,99,9801]`, and
`[1,1,1,4,99,5,6,0,99]` as `[30,1,1,4,2,5,6,0,99]`. -/
theorem c1_canonical_fixtures :
    Computer.run 8 (Computer.new [1, 0, 0, 0, 99]) [] =
      some (.ok ({ instruction_pointer := 4, cycle_count := 2, halted := true,
                   memory := [2, 0, 0, 0, 99], io_record := [] }, [])) ∧
    Computer.run 8 (Computer.new [2, 3, 0, 3, 99]) [] =
      some (.ok ({ instruction_pointer := 4, cycle_count := 2, halted := true,
                   memory := [2, 3, 0, 6, 99], io_record := [] }, [])) ∧
    Computer.run 8 (Computer.new [2, 4, 4, 5, 99, 0]) [] =
      some (.ok ({ instruction_pointer := 4, cycle_count := 2, halted := true,
                   memory := [2, 4, 4, 5, 99, 9801], io_record := [] }, [])) ∧
    Computer.run 8 (Computer.new [1, 1, 1, 4, 99, 5, 6, 0, 99]) [] =
      some (.ok ({ instruction_pointer := 8, cycle_count := 3, halted := true,
                   memory := [30, 1, 1, 4, 2, 5, 6, 0, 99], io_record := [] }, [])) :=
  ⟨rfl, rfl, rfl, rfl⟩

/-- Claim C2: the raw word 1002 decodes to opcode Multiply (1002 mod 100
is 2) with parameter modes [Position, Immediate], and the absent third
(destination) mode defaults to Position. -/
theorem c2_decode_word_1002 :
    InstructionHeader.decode 1002 =
      .ok { opcode := .Multiply, parameter_modes := [.Position, .Immediate] } ∧
    InstructionHeader.get_mode_of_parameter
      { opcode := .Multiply, parameter_modes := [.Position, .Immediate] } 2 =
      .Position :=
  ⟨rfl, rfl⟩

/-- Claim C3: running `[3,0,4,0,99]` from the initial state with an input
source supplying the single value v halts successfully with the IO record
exactly [UserInput v, Output v], in that order. -/
theorem c3_io_round_trip (v : Int) :
    Computer.run 8 (Computer.new [3, 0, 4, 0, 99]) [v] =
      some (.ok ({ instruction_pointer := 4, cycle_count := 3, halted := true,
                   memory := [v, 0, 4, 0, 99],
                   io_record := [RecordedIo.UserInput v, RecordedIo.Output v] }, [])) :=
  rfl

/-- Claim C3, instantiated at the concrete input 7. -/
theorem c3_io_round_trip_witness :
    Computer.run 8 (Computer.new [3, 0, 4, 0, 99]) [7] =
      some (.ok ({ instruction_pointer := 4, cycle_count := 3, halted := true,
                   memory := [7, 0, 4, 0, 99],
                   io_record := [RecordedIo.UserInput 7, RecordedIo.Output 7] }, [])) :=
  c3_io_round_trip 7

/-- Claim C8: the truncated program `[1,0,0]` — an Add header with only
two of its three required parameter words — fails decoding (and hence
stepping) with InstructionDecodeFailed, leaving the machine untouched. -/
theorem c8_truncated_program :
    Instruction.decode [1, 0, 0] = .error .InstructionDecodeFailed ∧
    (Computer.new [1, 0, 0]).step [] =
      (.error .InstructionDecodeFailed, Computer.new [1, 0, 0], []) :=
  ⟨rfl, rfl⟩

/-- Claim C10: no negative word decodes to any opcode — the Rust truncated
remainder `word % 100` of a negative word is nonpositive, hence never 1,
2, 3, 4 or 99 — so decoding fails with UnknownOpcode. -/
theorem c10_negative_word_never_decodes (w : Int) (h : w < 0) :
    Opcode.decode w = .error .UnknownOpcode := by
  have hmod : w.tmod 100 ≤ 0 := by
    cases w with
    | ofNat n => exact absurd h (Int.ofNat_nonneg n).not_lt
    | negSucc m =>
      show -(Int.ofNat (m.succ % 100)) ≤ 0
      exact neg_nonpos.mpr (Int.ofNat_nonneg _)
  unfold Opcode.decode
  rw [if_neg (by omega), if_neg (by omega), if_neg (by omega), if_neg (by omega),
    if_neg (by omega)]

/-- Claim C10, instantiated at -101: despite a mathematical residue of 99
mod 100, the word -101 does not decode to Halt. -/
theorem c10_negative_word_never_decodes_witness :
    Opcode.decode (-101) = .error .UnknownOpcode :=
  c10_negative_word_never_decodes (-101) (by norm_num)

/-- Claim C6: when decoding at the current instruction pointer fails —
either because the pointer is out of bounds for streaming or because the
instruction itself fails to decode — step returns that error with pointer,
halted flag, cycle counter, memory and IO record all exactly as before. -/
theorem c6_decode_failure_preserves_state (c : Computer) (inputs : List Int)
    (e : ComputerError) (s : List Int)
    (h : read_stream_from c.memory c.instruction_pointer = .error e ∨
         (read_stream_from c.memory c.instruction_pointer = .ok s ∧
          Instruction.decode s = .error e)) :
    c.step inputs = (.error e, c, inputs) := by
  unfold Computer.step
  rcases h with h | ⟨h1, h2⟩
  · rw [h]
  · rw [h1]
    simp only [h2]

/-- Claim C6, instantiated at the truncated program [1, 0]. -/
theorem c6_decode_failure_preserves_state_witness :
    (Computer.new [1, 0]).step [] =
      (.error .InstructionDecodeFailed, Computer.new [1, 0], []) :=
  c6_decode_failure_preserves_state (Computer.new [1, 0]) [] .InstructionDecodeFailed
    [1, 0] (Or.inr ⟨rfl, rfl⟩)

/-- A successful `perform_write` went through a Position parameter whose
address is in bounds, and changed exactly that one memory slot. -/
theorem perform_write_ok (c : Computer) (d : Parameter) (v : Int) (c2 : Computer)
    (h : c.perform_write d v = .ok c2) :
    ∃ a, d = .Position a ∧ a < c.memory.length ∧
      c2 = { c with memory := c.memory.set a v } := by
  cases d with
  | Immediate x => exact absurd h (by simp [Computer.perform_write])
  | Position a =>
    refine ⟨a, rfl, ?_⟩
    simp only [Computer.perform_write, write_slot] at h
    by_cases hlen : a < c.memory.length
    · rw [if_pos hlen] at h
      simp only [Except.ok.injEq] at h
      exact ⟨hlen, h.symm⟩
    · rw [if_neg hlen] at h
      exact absurd h (by simp)

/-- No execution path of any instruction resets the halted flag. -/
theorem execute_preserves_halted (c : Computer) (inputs : List Int)
    (instruction : Instruction) (h : c.halted = true) :
    ((c.execute inputs instruction).2.1).halted = true := by
  cases instruction with
  | Add a b result =>
    dsimp only [Computer.execute]
    split
    · exact h
    · split
      · exact h
      · split
        · exact h
        · rename_i va vb c2 hw
          obtain ⟨x, hx, hlen, hc2⟩ := perform_write_ok c result _ c2 hw
          subst hc2
          exact h
  | Multiply a b result =>
    dsimp only [Computer.execute]
    split
    · exact h
    · split
      · exact h
      · split
        · exact h
        · rename_i va vb c2 hw
          obtain ⟨x, hx, hlen, hc2⟩ := perform_write_ok c result _ c2 hw
          subst hc2
          exact h
  | Input destination =>
    dsimp only [Computer.execute]
    split
    · exact h
    · split
      · exact h
      · rename_i value rest hin c2 hw
        obtain ⟨x, hx, hlen, hc2⟩ := perform_write_ok _ destination value c2 hw
        subst hc2
        exact h
  | Output source =>
    dsimp only [Computer.execute]
    split
    · exact h
    · exact h
  | Halt => rfl

/-- No step, successful or not, resets the halted flag. -/
theorem step_preserves_halted (c : Computer) (inputs : List Int)
    (h : c.halted = true) : ((c.step inputs).2.1).halted = true := by
  dsimp only [Computer.step]
  split
  · exact h
  · split
    · exact h
    · rename_i stream hs instruction hd
      split
      · rename_i e c2 inputs2 hexe
        have hex := execute_preserves_halted c inputs instruction h
        rw [hexe] at hex
        exact hex
      · rename_i advance_by c2 inputs2 hexe
        have hex := execute_preserves_halted c inputs instruction h
        rw [hexe] at hex
        exact hex

/-- No sequence of steps resets the halted flag. -/
theorem stepMany_preserves_halted (n : Nat) (c : Computer) (inputs : List Int)
    (h : c.halted = true) : ((Computer.stepMany n c inputs).1).halted = true := by
  induction n generalizing c inputs with
  | zero => exact h
  | succ n ih =>
    dsimp only [Computer.stepMany]
    exact ih (c.step inputs).2.1 (c.step inputs).2.2 (step_preserves_halted c inputs h)

/-- Claim C9: stepping an already-halted machine whose pointer still
addresses the Halt word succeeds again — it re-decodes and re-executes
Halt, leaving pointer, memory, IO record and the halted flag (still true)
unchanged and incrementing only the cycle counter — and no sequence of
steps ever resets the halted flag to false. -/
theorem c9_post_halt_step (c : Computer) (inputs : List Int) (s : List Int)
    (hh : c.halted = true)
    (hs : read_stream_from c.memory c.instruction_pointer = .ok s)
    (hd : Instruction.decode s = .ok .Halt) :
    c.step inputs = (.ok (), { c with cycle_count := c.cycle_count + 1 }, inputs) ∧
    ∀ (n : Nat) (c0 : Computer) (inputs0 : List Int), c0.halted = true →
      ((Computer.stepMany n c0 inputs0).1).halted = true := by
  refine ⟨?_, fun n c0 inputs0 h0 => stepMany_preserves_halted n c0 inputs0 h0⟩
  obtain ⟨ip, cc, hl, mem, io⟩ := c
  change hl = true at hh
  subst hh
  change read_stream_from mem ip = Except.ok s at hs
  simp only [Computer.step, Computer.execute, hs, hd]
  rfl

/-- Claim C9, instantiated at a halted machine sitting on a Halt word. -/
theorem c9_post_halt_step_witness :
    Computer.step { instruction_pointer := 0, cycle_count := 1, halted := true,
                    memory := [99], io_record := [] } [] =
      (.ok (), { instruction_pointer := 0, cycle_count := 2, halted := true,
                 memory := [99], io_record := [] }, []) :=
  (c9_post_halt_step
    { instruction_pointer := 0, cycle_count := 1, halted := true,
      memory := [99], io_record := [] }
    [] [99] rfl rfl rfl).1

/-- Executing Add either fails leaving the whole state untouched, or both
operand reads succeeded, the destination was an in-bounds Position, and
exactly that one slot was written with the sum. -/
theorem execute_add_cases (c : Computer) (inputs : List Int) (a b r : Parameter) :
    (∃ e, c.execute inputs (.Add a b r) = (.error e, c, inputs)) ∨
    (∃ x y addr, c.perform_read a = .ok x ∧ c.perform_read b = .ok y ∧
      r = .Position addr ∧ addr < c.memory.length ∧
      c.execute inputs (.Add a b r) =
        (.ok 4, { c with memory := c.memory.set addr (x + y) }, inputs)) := by
  dsimp only [Computer.execute]
  split
  · exact Or.inl ⟨_, rfl⟩
  · split
    · exact Or.inl ⟨_, rfl⟩
    · split
      · exact Or.inl ⟨_, rfl⟩
      · rename_i va hra _ vb hrb _ c2 hw
        obtain ⟨addr, hr, hlen, hc2⟩ := perform_write_ok c r _ c2 hw
        subst hc2
        exact Or.inr ⟨va, vb, addr, hra, hrb, hr, hlen, rfl⟩

/-- Executing Multiply either fails leaving the whole state untouched, or
both operand reads succeeded, the destination was an in-bounds Position,
and exactly that one slot was written with the product. -/
theorem execute_multiply_cases (c : Computer) (inputs : List Int) (a b r : Parameter) :
    (∃ e, c.execute inputs (.Multiply a b r) = (.error e, c, inputs)) ∨
    (∃ x y addr, c.perform_read a = .ok x ∧ c.perform_read b = .ok y ∧
      r = .Position addr ∧ addr < c.memory.length ∧
      c.execute inputs (.Multiply a b r) =
        (.ok 4, { c with memory := c.memory.set addr (x * y) }, inputs)) := by
  dsimp only [Computer.execute]
  split
  · exact Or.inl ⟨_, rfl⟩
  · split
    · exact Or.inl ⟨_, rfl⟩
    · split
      · exact Or.inl ⟨_, rfl⟩
      · rename_i va hra _ vb hrb _ c2 hw
        obtain ⟨addr, hr, hlen, hc2⟩ := perform_write_ok c r _ c2 hw
        subst hc2
        exact Or.inr ⟨va, vb, addr, hra, hrb, hr, hlen, rfl⟩

/-- Claim C5: every Add or Multiply execution performs exactly one memory
write, and only after both operand reads have succeeded: on success the
destination is an in-bounds Position address and memory changes by exactly
that one slot (sum or product of the operand values); whenever execution
returns an error, memory is left completely unchanged — no partial write
occurs. -/
theorem c5_add_multiply_single_write (c : Computer) (inputs : List Int)
    (a b r : Parameter) :
    (∀ e, (c.execute inputs (.Add a b r)).1 = .error e →
        ((c.execute inputs (.Add a b r)).2.1).memory = c.memory) ∧
    (∀ e, (c.execute inputs (.Multiply a b r)).1 = .error e →
        ((c.execute inputs (.Multiply a b r)).2.1).memory = c.memory) ∧
    (∀ n, (c.execute inputs (.Add a b r)).1 = .ok n →
        ∃ addr x y, r = .Position addr ∧ c.perform_read a = .ok x ∧
          c.perform_read b = .ok y ∧ addr < c.memory.length ∧
          ((c.execute inputs (.Add a b r)).2.1).memory =
            c.memory.set addr (x + y)) ∧
    (∀ n, (c.execute inputs (.Multiply a b r)).1 = .ok n →
        ∃ addr x y, r = .Position addr ∧ c.perform_read a = .ok x ∧
          c.perform_read b = .ok y ∧ addr < c.memory.length ∧
          ((c.execute inputs (.Multiply a b r)).2.1).memory =
            c.memory.set addr (x * y)) := by
  refine ⟨?_, ?_, ?_, ?_⟩
  · intro e he
    rcases execute_add_cases c inputs a b r with ⟨e2, hEq⟩ |
        ⟨x, y, addr, hra, hrb, hr, hlen, hEq⟩
    · rw [hEq]
    · rw [hEq] at he
      simp at he
  · intro e he
    rcases execute_multiply_cases c inputs a b r with ⟨e2, hEq⟩ |
        ⟨x, y, addr, hra, hrb, hr, hlen, hEq⟩
    · rw [hEq]
    · rw [hEq] at he
      simp at he
  · intro n hok
    rcases execute_add_cases c inputs a b r with ⟨e2, hEq⟩ |
        ⟨x, y, addr, hra, hrb, hr, hlen, hEq⟩
    · rw [hEq] at hok
      simp at hok
    · exact ⟨addr, x, y, hr, hra, hrb, hlen, by rw [hEq]⟩
  · intro n hok
    rcases execute_multiply_cases c inputs a b r with ⟨e2, hEq⟩ |
        ⟨x, y, addr, hra, hrb, hr, hlen, hEq⟩
    · rw [hEq] at hok
      simp at hok
    · exact ⟨addr, x, y, hr, hra, hrb, hlen, by rw [hEq]⟩

/-- Claim C5, instantiated: an Add whose first operand read is out of
bounds errors and leaves the one-cell memory [1] unchanged. -/
theorem c5_add_multiply_single_write_witness :
    (((Computer.new [1]).execute []
        (.Add (.Position 5) (.Position 0) (.Immediate 0))).2.1).memory = [1] :=
  (c5_add_multiply_single_write (Computer.new [1]) []
      (.Position 5) (.Position 0) (.Immediate 0)).1
    .MemoryOperationOutOfBounds rfl

/-- Claim C4 counterexample: the Add instruction
`Add (Position 5) (Position 0) (Immediate 0)` has an Immediate
destination, yet executing it on the one-cell memory [1] fails with
MemoryOperationOutOfBounds — the first operand read fails before the
write is attempted — not with WriteParameterCannotBeImmediateMode. -/
theorem c4_counterexample_read_error_first :
    ((Computer.new [1]).execute []
        (.Add (.Position 5) (.Position 0) (.Immediate 0))).1 =
      .error .MemoryOperationOutOfBounds ∧
    ComputerError.MemoryOperationOutOfBounds ≠
      ComputerError.WriteParameterCannotBeImmediateMode :=
  ⟨rfl, by decide⟩

/-- Claim C4 (amended): executing an Add, Multiply or Input instruction
whose destination parameter is Immediate never succeeds — the write is
never a silent no-op — and the error is WriteParameterCannotBeImmediateMode
whenever the effects preceding the write succeed (both operand reads for
Add/Multiply, availability of an input value for Input); an earlier failed
operand read or missing input reports its own error instead. -/
theorem c4_immediate_destination_write_fails (c : Computer) (inputs : List Int)
    (instruction : Instruction) (v : Int)
    (h : (∃ a b, instruction = .Add a b (.Immediate v)) ∨
         (∃ a b, instruction = .Multiply a b (.Immediate v)) ∨
         instruction = .Input (.Immediate v)) :
    (∀ n, (c.execute inputs instruction).1 ≠ .ok n) ∧
    (∀ a b x y, instruction = .Add a b (.Immediate v) →
        c.perform_read a = .ok x → c.perform_read b = .ok y →
        (c.execute inputs instruction).1 =
          .error .WriteParameterCannotBeImmediateMode) ∧
    (∀ a b x y, instruction = .Multiply a b (.Immediate v) →
        c.perform_read a = .ok x → c.perform_read b = .ok y →
        (c.execute inputs instruction).1 =
          .error .WriteParameterCannotBeImmediateMode) ∧
    (instruction = .Input (.Immediate v) → inputs ≠ [] →
        (c.execute inputs instruction).1 =
          .error .WriteParameterCannotBeImmediateMode) := by
  refine ⟨?_, ?_, ?_, ?_⟩
  · intro n hok
    rcases h with ⟨a, b, heq⟩ | ⟨a, b, heq⟩ | heq
    · subst heq
      rcases execute_add_cases c inputs a b (.Immediate v) with ⟨e, hEq⟩ |
          ⟨x, y, addr, hra, hrb, hr, hlen, hEq⟩
      · rw [hEq] at hok
        simp at hok
      · exact Parameter.noConfusion hr
    · subst heq
      rcases execute_multiply_cases c inputs a b (.Immediate v) with ⟨e, hEq⟩ |
          ⟨x, y, addr, hra, hrb, hr, hlen, hEq⟩
      · rw [hEq] at hok
        simp at hok
      · exact Parameter.noConfusion hr
    · subst heq
      cases inputs with
      | nil => simp [Computer.execute] at hok
      | cons value rest => simp [Computer.execute, Computer.perform_write] at hok
  · intro a b x y heq hra hrb
    subst heq
    simp only [Computer.execute, hra, hrb, Computer.perform_write]
  · intro a b x y heq hra hrb
    subst heq
    simp only [Computer.execute, hra, hrb, Computer.perform_write]
  · intro heq hne
    subst heq
    cases inputs with
    | nil => exact absurd rfl hne
    | cons value rest => rfl

/-- Claim C4 (amended), instantiated: an Add of two Immediate operands
into an Immediate destination fails with
WriteParameterCannotBeImmediateMode. -/
theorem c4_immediate_destination_write_fails_witness :
    ((Computer.new [1, 0]).execute []
        (.Add (.Immediate 1) (.Immediate 2) (.Immediate 0))).1 =
      .error .WriteParameterCannotBeImmediateMode :=
  (c4_immediate_destination_write_fails (Computer.new [1, 0]) []
      (.Add (.Immediate 1) (.Immediate 2) (.Immediate 0)) 0
      (Or.inl ⟨.Immediate 1, .Immediate 2, rfl⟩)).2.1
    (.Immediate 1) (.Immediate 2) 1 2 rfl rfl rfl

/-- The source's decode_all loop and the spec's described loop agree on
nonnegative words, fuel by fuel: for positive words both guards fire, and
at zero both stop. -/
theorem decodeAllAux_eq_specAux (fuel : Nat) :
    ∀ raw : Int, 0 ≤ raw →
      ParameterMode.decodeAllAux fuel raw = specDecodeAllAux fuel raw := by
  induction fuel with
  | zero => intro raw h; rfl
  | succ fuel ih =>
    intro raw h
    dsimp only [ParameterMode.decodeAllAux, specDecodeAllAux]
    by_cases hz : raw = 0
    · subst hz
      rfl
    · have hpos : 0 < raw := lt_of_le_of_ne h (Ne.symm hz)
      rw [if_pos hpos, if_neg hz]
      rw [ih (raw.tdiv 10) (Int.tdiv_nonneg h (by norm_num))]

/-- Claim C7 counterexample: at the negative word -1 the code's loop guard
`raw > 0` is already false, so decode_all returns zero modes, while the
spec's loop ("until the remaining word is 0") would decode the digit
-1 mod 10 and fail with UnknownParameterMode. -/
theorem c7_counterexample_negative_word :
    ParameterMode.decode_all (-1) = .ok [] ∧
    specDecodeAll (-1) = .error .UnknownParameterMode ∧
    ParameterMode.decode_all (-1) ≠ specDecodeAll (-1) := by
  refine ⟨rfl, rfl, fun hcontra => ?_⟩
  rw [show ParameterMode.decode_all (-1) = Except.ok [] from rfl,
    show specDecodeAll (-1) = Except.error ComputerError.UnknownParameterMode
      from rfl] at hcontra
  exact Except.noConfusion hcontra

/-- Claim C7 (amended): decode_all of 0 yields zero modes, and for every
NONNEGATIVE instruction word decode_all agrees with the digit loop the
spec describes (take word mod 10 — 0 mapping to Position, 1 to Immediate,
anything else failing with UnknownParameterMode — divide by 10, stop at
0); for negative words the source's `raw > 0` guard skips the loop
entirely and yields zero modes. -/
theorem c7_decode_all_digit_loop :
    ParameterMode.decode_all 0 = .ok [] ∧
    ∀ w : Int, 0 ≤ w → ParameterMode.decode_all w = specDecodeAll w := by
  refine ⟨rfl, fun w h => ?_⟩
  unfold ParameterMode.decode_all specDecodeAll
  exact decodeAllAux_eq_specAux w.natAbs w h

/-- Claim C7 (amended), instantiated at the mode word 10 (from
instruction word 1002). -/
theorem c7_decode_all_digit_loop_witness :
    ParameterMode.decode_all 10 = specDecodeAll 10 :=
  c7_decode_all_digit_loop.2 10 (by norm_num)

end Intcode
